import Mathlib

/-!
Verification of the Recommendation and Preference Engine of the telegram
food-recommendation bot (src/main.py).  The Python functions relevant to the
frozen claims are shallowly embedded as executable Lean definitions; database
tables become lists of rows, SQL queries become filter/sort/take pipelines,
and the nondeterminism of `ORDER BY RANDOM()`, of `random.choice`, and of the
unspecified tie order of SQLite is exposed as explicit shuffle or choice
parameters.
-/

namespace FoodBot

/-! ## String utilities

`normalize` in the source is `re.sub(r"\s+", " ", text.strip().lower())`:
Unicode lower-casing, trimming and whitespace collapsing.  SQLite `lower()`
folds only ASCII, so it is modelled by a separate function.  Substring tests
(`x in y` in Python, `LIKE :percent:x:percent:` in SQL) are modelled over
character lists. -/

/-- Python `str.lower` restricted to the alphabets occurring in the data:
ASCII letters and the Cyrillic block used by the tables. -/
def lowerChar (c : Char) : Char :=
  if c.toNat ≥ 65 ∧ c.toNat ≤ 90 then Char.ofNat (c.toNat + 32)
  else if c.toNat ≥ 0x410 ∧ c.toNat ≤ 0x42F then Char.ofNat (c.toNat + 32)
  else if c.toNat = 0x401 then Char.ofNat 0x451
  else c

/-- Model of Python `str.lower()`. -/
def pyLower (s : String) : String := String.mk (s.toList.map lowerChar)

/-- Model of SQLite `lower()`, which folds ASCII letters only. -/
def sqlLowerChar (c : Char) : Char :=
  if c.toNat ≥ 65 ∧ c.toNat ≤ 90 then Char.ofNat (c.toNat + 32) else c

/-- Model of SQLite `lower()` on strings. -/
def sqlLower (s : String) : String := String.mk (s.toList.map sqlLowerChar)

/-- Whitespace characters recognised by the regular expression in `normalize`. -/
def isWs (c : Char) : Bool :=
  c = ' ' || c = '\t' || c = '\n' || c = '\r' || c.toNat = 11 || c.toNat = 12

/-- Split a character stream at whitespace, dropping empty pieces; the
accumulator holds the current token reversed. -/
def splitWsAux : List Char → List Char → List String
  | [], cur => if cur = [] then [] else [String.mk cur.reverse]
  | c :: cs, cur =>
      if isWs c then
        if cur = [] then splitWsAux cs []
        else String.mk cur.reverse :: splitWsAux cs []
      else splitWsAux cs (c :: cur)

/-- Whitespace-separated tokens of a string, empty pieces dropped; this is
Python `str.split()`. -/
def splitWs (s : String) : List String := splitWsAux s.toList []

/-- Join tokens with single blanks. -/
def joinWithSpace : List String → List Char
  | [] => []
  | [t] => t.toList
  | t :: ts => t.toList ++ ' ' :: joinWithSpace ts

/-- `normalize` from src/main.py line 516: lower-case, strip, collapse
internal whitespace runs to a single blank. -/
def normalize (s : String) : String := String.mk (joinWithSpace (splitWs (pyLower s)))

/-- Python `str.split(",")`: split at every comma, keeping empty pieces. -/
def splitCommaAux : List Char → List Char → List String
  | [], cur => [String.mk cur.reverse]
  | c :: cs, cur =>
      if c = ',' then String.mk cur.reverse :: splitCommaAux cs []
      else splitCommaAux cs (c :: cur)

/-- Python `str.split(",")` on a string. -/
def splitComma (s : String) : List String := splitCommaAux s.toList []

/-- Does the list start with the given pattern (first argument)? -/
def startsWithL : List Char → List Char → Bool
  | [], _ => true
  | _ :: _, [] => false
  | a :: as, b :: bs => a == b && startsWithL as bs

/-- Does the haystack contain the needle as a contiguous run? -/
def containsL (hay needle : List Char) : Bool :=
  match hay with
  | [] => startsWithL needle []
  | _ :: t => startsWithL needle hay || containsL t needle

/-- Python `needle in hay` on strings, also SQL `hay LIKE :pc:needle:pc:`. -/
def substr (needle hay : String) : Bool := containsL hay.toList needle.toList

/-- Python `str.endswith`. -/
def endsWithL (s suf : String) : Bool :=
  startsWithL suf.toList.reverse s.toList.reverse

/-- Python `str.rstrip(cs)`: drop trailing characters that belong to `cs`. -/
def rstripSet (s : String) (cs : String) : String :=
  String.mk ((s.toList.reverse.dropWhile (fun c => cs.toList.contains c)).reverse)

/-- Python truthiness of an optional string: `None` and `""` are falsy. -/
def truthy (o : Option String) : Option String :=
  match o with
  | some s => if s = "" then none else some s
  | none => none

/-! ## Sorting infrastructure

SQL `ORDER BY key DESC, RANDOM()` over a filtered row set is modelled as a
stable insertion sort by the key applied to an arbitrary permutation of the
rows; the permutation carries the randomness of the tiebreak. -/

/-- Insert an element into a list so that elements satisfying `le` first stay
in front. -/
def insertSorted (le : α → α → Bool) (x : α) : List α → List α
  | [] => [x]
  | y :: ys => if le x y then x :: y :: ys else y :: insertSorted le x ys

/-- Insertion sort by a boolean relation. -/
def sortBy (le : α → α → Bool) : List α → List α
  | [] => []
  | x :: xs => insertSorted le x (sortBy le xs)

theorem mem_insertSorted (le : α → α → Bool) (x : α) (l : List α) (a : α) :
    a ∈ insertSorted le x l ↔ a = x ∨ a ∈ l := by
  induction l with
  | nil => simp [insertSorted]
  | cons y ys ih =>
      by_cases h : le x y = true
      · simp [insertSorted, h]
      · simp only [insertSorted, if_neg h, List.mem_cons, ih]
        tauto

theorem insertSorted_perm (le : α → α → Bool) (x : α) (l : List α) :
    List.Perm (insertSorted le x l) (x :: l) := by
  induction l with
  | nil => simp [insertSorted]
  | cons y ys ih =>
      by_cases h : le x y = true
      · simp [insertSorted, h]
      · rw [insertSorted, if_neg h]
        exact (List.Perm.cons y ih).trans (List.Perm.swap x y ys)

theorem sortBy_perm (le : α → α → Bool) (l : List α) :
    List.Perm (sortBy le l) l := by
  induction l with
  | nil => simp [sortBy]
  | cons x xs ih =>
      exact (insertSorted_perm le x (sortBy le xs)).trans (List.Perm.cons x ih)

theorem pairwise_insertSorted (le : α → α → Bool)
    (htot : ∀ a b, le a b = true ∨ le b a = true)
    (htr : ∀ a b c, le a b = true → le b c = true → le a c = true)
    (x : α) (l : List α) (h : l.Pairwise (fun a b => le a b = true)) :
    (insertSorted le x l).Pairwise (fun a b => le a b = true) := by
  induction l with
  | nil => simp [insertSorted]
  | cons y ys ih =>
      rcases List.pairwise_cons.mp h with ⟨hy, hys⟩
      by_cases hxy : le x y = true
      · simp only [insertSorted, hxy, if_true]
        refine List.pairwise_cons.mpr ⟨?_, h⟩
        intro z hz
        rcases List.mem_cons.mp hz with rfl | hz
        · exact hxy
        · exact htr _ _ _ hxy (hy z hz)
      · rw [insertSorted, if_neg hxy]
        refine List.pairwise_cons.mpr ⟨?_, ih hys⟩
        intro z hz
        rcases (mem_insertSorted le x ys z).mp hz with rfl | hz
        · rcases htot z y with hc | hc
          · exact absurd hc hxy
          · exact hc
        · exact hy z hz

theorem sortBy_pairwise (le : α → α → Bool)
    (htot : ∀ a b, le a b = true ∨ le b a = true)
    (htr : ∀ a b c, le a b = true → le b c = true → le a c = true)
    (l : List α) :
    (sortBy le l).Pairwise (fun a b => le a b = true) := by
  induction l with
  | nil => simp [sortBy]
  | cons x xs ih => exact pairwise_insertSorted le htot htr x (sortBy le xs) ih

/-- Descending lexicographic comparison on a pair of keys, the relation used
by every `ORDER BY k1 DESC, k2 DESC` in the source. -/
def keyGe {α β : Type} [LinearOrder α] [LinearOrder β] (a b : α × β) : Bool :=
  decide (b.1 < a.1 ∨ (a.1 = b.1 ∧ b.2 ≤ a.2))

theorem keyGe_total {α β : Type} [LinearOrder α] [LinearOrder β] (a b : α × β) :
    keyGe a b = true ∨ keyGe b a = true := by
  simp only [keyGe, decide_eq_true_eq]
  rcases lt_trichotomy a.1 b.1 with h | h | h
  · right; left; exact h
  · rcases le_total a.2 b.2 with h2 | h2
    · right; right; exact ⟨h.symm, h2⟩
    · left; right; exact ⟨h, h2⟩
  · left; left; exact h

theorem keyGe_trans {α β : Type} [LinearOrder α] [LinearOrder β]
    (a b c : α × β) (hab : keyGe a b = true) (hbc : keyGe b c = true) :
    keyGe a c = true := by
  simp only [keyGe, decide_eq_true_eq] at *
  rcases hab with h1 | ⟨h1, h1'⟩
  · rcases hbc with h2 | ⟨h2, h2'⟩
    · exact Or.inl (h2.trans h1)
    · exact Or.inl (h2 ▸ h1)
  · rcases hbc with h2 | ⟨h2, h2'⟩
    · exact Or.inl (h1 ▸ h2)
    · exact Or.inr ⟨h1.trans h2, h2'.trans h1'⟩

/-! ## Term Expander (src/main.py expand_terms, lines 564-595)

The hard-coded `SYNONYMS` dictionary, and the rows of the `synonyms` SQLite
table passed in as a parameter (the source swallows `sqlite3.Error`, which is
the instantiation with the empty row list).  Python builds a `set`, modelled
as a `Finset String`. -/

/-- The SYNONYMS dictionary from src/main.py lines 172-197. -/
def SYNONYMS : List (String × List String) :=
  [ ("чизкейк", ["cheesecake", "десерт", "sweet", "сырный торт"]),
    ("брауни", ["brownie", "десерт", "шоколад"]),
    ("десерт", ["sweet", "торт", "выпечка", "кофейня"]),
    ("пирог", ["шарлотка", "выпечка", "десерт"]),
    ("пирожное", ["десерт", "торт", "sweet"]),
    ("рамэн", ["рамен", "лапша", "суп", "азиатское", "спайси"]),
    ("рамен", ["рамэн", "лапша", "суп", "азиатское", "острое", "spicy"]),
    ("лапша", ["рамен", "вок", "азиатское"]),
    ("бургер", ["бургеры", "сэндвич", "гриль", "мясо"]),
    ("пицца", ["pizza", "маргарита", "итальянское", "сыр"]),
    ("кофе", ["кофейня", "latte", "капучино", "десерт"]),
    ("кофейня", ["кофе", "десерт", "sweet"]),
    ("кафе", ["кофейня", "coffee", "десерт", "сладкое"]),
    ("завтрак", ["панкейки", "омлет", "авокадо", "кофейня"]),
    ("салат", ["healthy", "овощи", "полезное"]),
    ("суп", ["борщ", "том ям", "рамэн", "лапша"]),
    ("роллы", ["суши", "японская", "рыба"]),
    ("суши", ["японская", "роллы", "азиатская", "рыба"]),
    ("том ям", ["тайская", "суп", "острое", "spicy"]),
    ("тако", ["мексиканская", "острое", "spicy"]),
    ("фахитас", ["мексиканская", "курица", "острое"]),
    ("гриль", ["барбекю", "стейк", "мясо"]),
    ("овсянка", ["каша", "healthy", "завтрак"]),
    ("боул", ["healthy", "полезное", "лёгкое"]),
    ("здоровое", ["healthy", "боул", "овощи"]) ]

/-- Trailing inflectional endings stripped by expand_terms. -/
def STRIP_SUFFIXES : List String := ["ы", "а", "ой", "ий", "я", "ь"]

/-- One iteration of the loop over the hard-coded SYNONYMS dictionary. -/
def synStep (base : String) (acc : Finset String) (kg : String × List String)
    : Finset String :=
  let acc1 := if substr kg.1 base then acc ∪ kg.2.toFinset else acc
  let acc2 := if base = kg.1 then acc1 ∪ kg.2.toFinset else acc1
  if kg.2.contains base then (insert kg.1 acc2) ∪ kg.2.toFinset else acc2

/-- One iteration of the loop over the rows of the `synonyms` table; a row is
the pair (word, alt_words). -/
def dbStep (base : String) (acc : Finset String) (row : String × String)
    : Finset String :=
  let word := normalize row.1
  if word = "" then acc
  else
    let alts := ((splitComma row.2).filter (· ≠ "")).map normalize
    let acc1 :=
      if substr word base || substr base word then
        (insert word acc) ∪ alts.toFinset
      else acc
    if alts.contains base then (insert word acc1) ∪ alts.toFinset else acc1

/-- `expand_terms` from src/main.py lines 564-595.  `dbRows` are the rows of
the `synonyms` table; when the table read raises `sqlite3.Error` the source
skips the whole loop, which corresponds to `dbRows = []`. -/
def expand_terms (query : String) (dbRows : List (String × String)) : Finset String :=
  let base := normalize query
  if base = "" then ∅
  else
    let t0 : Finset String := {base}
    let t1 := SYNONYMS.foldl (synStep base) t0
    let t2 := t1 ∪ (splitWs base).toFinset
    let t3 := t2 ∪
      (STRIP_SUFFIXES.filterMap
        (fun suf => if endsWithL base suf then some (rstripSet base suf) else none)).toFinset
    let t4 := dbRows.foldl (dbStep base) t3
    t4.filter (· ≠ "")

theorem subset_foldl {α β : Type} [DecidableEq α]
    (f : Finset α → β → Finset α) (h : ∀ acc b, acc ⊆ f acc b) :
    ∀ (l : List β) (acc : Finset α), acc ⊆ l.foldl f acc := by
  intro l
  induction l with
  | nil => intro acc; simp
  | cons b bs ih =>
      intro acc
      exact (h acc b).trans (ih (f acc b))

theorem subset_ite_union {α : Type} [DecidableEq α] (acc s : Finset α)
    (c : Prop) [Decidable c] : acc ⊆ (if c then acc ∪ s else acc) := by
  split
  · exact Finset.subset_union_left
  · exact Finset.Subset.refl acc

theorem subset_ite_insert_union {α : Type} [DecidableEq α] (acc s : Finset α)
    (w : α) (c : Prop) [Decidable c] :
    acc ⊆ (if c then (insert w acc) ∪ s else acc) := by
  split
  · exact (Finset.subset_insert w acc).trans Finset.subset_union_left
  · exact Finset.Subset.refl acc

theorem subset_synStep (base : String) (acc : Finset String)
    (kg : String × List String) : acc ⊆ synStep base acc kg := by
  simp only [synStep]
  refine (subset_ite_union acc kg.2.toFinset (substr kg.1 base = true)).trans ?_
  refine (subset_ite_union _ kg.2.toFinset (base = kg.1)).trans ?_
  exact subset_ite_insert_union _ kg.2.toFinset kg.1 (kg.2.contains base = true)

theorem subset_dbStep (base : String) (acc : Finset String)
    (row : String × String) : acc ⊆ dbStep base acc row := by
  simp only [dbStep]
  split
  · exact Finset.Subset.refl acc
  · refine Finset.subset_iff.mpr ?_
    intro x hx
    split <;> split <;>
      first
        | exact hx
        | (simp only [Finset.mem_union, Finset.mem_insert]; tauto)

theorem base_mem_expand_terms (query : String) (dbRows : List (String × String))
    (h : normalize query ≠ "") :
    normalize query ∈ expand_terms query dbRows := by
  unfold expand_terms
  rw [if_neg h]
  refine Finset.mem_filter.mpr ⟨?_, h⟩
  refine subset_foldl (dbStep (normalize query)) (subset_dbStep (normalize query)) dbRows _ ?_
  refine Finset.mem_union_left _ ?_
  refine Finset.mem_union_left _ ?_
  refine subset_foldl (synStep (normalize query)) (subset_synStep (normalize query)) SYNONYMS _ ?_
  exact Finset.mem_singleton_self _

/-! ## Suggestion Queue (src/main.py lines 980-997)

`context.user_data` maps the key `{item_type}_bundle` to a dict with fields
`items`, `index`, `meta`; the per-key slot is an `Option Bundle`, `none` when
the key is absent. -/

/-- The queue bundle stored under the per-user, per-kind key. -/
structure Bundle (α : Type) (M : Type) where
  items : List α
  index : Nat
  meta : M

/-- `store_queue`: replaces the bundle with a fresh list and cursor 0. -/
def store_queue {α M : Type} (items : List α) (m : M) : Option (Bundle α M) :=
  some { items := items, index := 0, meta := m }

/-- `current_item`: the item at the cursor, or none when the bundle is absent
or the cursor is at or past the end of the list. -/
def current_item {α M : Type} : Option (Bundle α M) → Option α
  | none => none
  | some b => b.items.get? b.index

/-- `advance_queue`: increments the cursor by one; no-op on a missing bundle. -/
def advance_queue {α M : Type} : Option (Bundle α M) → Option (Bundle α M)
  | none => none
  | some b => some { b with index := b.index + 1 }

/-! ## Preference Tracker (src/main.py resolve_random_category, lines 1009-1026,
and the user_tastes upsert in apply_feedback, lines 1256-1294) -/

/-- A row of the `user_tastes` table. -/
structure TasteRow where
  chatId : Int
  category : String
  likes : Int
  dislikes : Int
deriving DecidableEq

/-- The DEFAULT_TASTES tuple from src/main.py line 253. -/
def DEFAULT_TASTES : List String := ["sweet", "salty", "spicy", "healthy"]

/-- The `random.choice(DEFAULT_TASTES)` draw, exposed as a uniform index into
the four fixed categories. -/
def defaultTaste (choice : Fin 4) : String := DEFAULT_TASTES.get ⟨choice.1, choice.2⟩

/-- The Python guard `fallback and fallback != "random"`: the explicit
category survives only when truthy and not the random sentinel. -/
def fallbackExplicit (fallback : Option String) : Option String :=
  match truthy fallback with
  | some c => if c = "random" then none else some c
  | none => none

/-- The row selected by `SELECT category, (likes - dislikes) AS score, likes
FROM user_tastes WHERE chat_id=? ORDER BY score DESC, likes DESC LIMIT 1`. -/
def topTasteRow (tastes : List TasteRow) (chatId : Int) : Option TasteRow :=
  (sortBy
    (fun a b => keyGe (a.likes - a.dislikes, a.likes) (b.likes - b.dislikes, b.likes))
    (tastes.filter (fun r => decide (r.chatId = chatId)))).head?

/-- `resolve_random_category` from src/main.py lines 1009-1026. -/
def resolve_random_category (tastes : List TasteRow) (chatId : Int)
    (fallback : Option String) (choice : Fin 4) : String :=
  match fallbackExplicit fallback with
  | some c => c
  | none =>
    match topTasteRow tastes chatId with
    | some row =>
        if 0 ≤ row.likes - row.dislikes ∧ 1 ≤ row.likes then row.category
        else
          match fallbackExplicit fallback with
          | some c => c
          | none => defaultTaste choice
    | none =>
        match fallbackExplicit fallback with
        | some c => c
        | none => defaultTaste choice

/-- The `INSERT INTO user_tastes ... ON CONFLICT(chat_id, category) DO UPDATE
SET likes = likes + excluded.likes, dislikes = dislikes + excluded.dislikes`
statement of apply_feedback, acting on the table viewed as a map from the
primary key (chat_id, category) to the counter pair. -/
def upsertTaste (t : Int × String → Option (Int × Int)) (chatId : Int)
    (cat : String) (liked : Bool) : Int × String → Option (Int × Int) :=
  fun k =>
    if k = (chatId, cat) then
      match t (chatId, cat) with
      | none => some ((if liked then 1 else 0), (if liked then 0 else 1))
      | some ld => some (ld.1 + (if liked then 1 else 0), ld.2 + (if liked then 0 else 1))
    else t k

/-- A sequence of feedback applications whose items all resolve to the same
(user, category) pair, folded over the user_tastes table. -/
def tastesAfter (chatId : Int) (cat : String)
    (t0 : Int × String → Option (Int × Int)) (events : List Bool) :
    Int × String → Option (Int × Int) :=
  events.foldl (fun t liked => upsertTaste t chatId cat liked) t0

/-! ## Item popularity update (apply_feedback, src/main.py lines 1281-1294)
and the feedback actions of feedback_handler (lines 2267-2303): `like` and
`dislike` call apply_feedback with liked True and False; `next` (skip) only
advances the queue and never touches the recipes table. -/

/-- A row of the `recipes` table (the columns the engine reads). -/
structure Recipe where
  id : Int
  title : String
  tags : String
  keywords : String
  category : String
  likes : Int
deriving DecidableEq

/-- The `UPDATE recipes SET likes = likes + ? WHERE id=?` statement. -/
def updateRecipeLikes (rows : List Recipe) (itemId : Option Int) (delta : Int) :
    List Recipe :=
  rows.map (fun r => if some r.id = itemId then { r with likes := r.likes + delta } else r)

/-- The three feedback actions a card exposes. -/
inductive FeedbackAction
  | like
  | dislike
  | skip
deriving DecidableEq

/-- Effect of one feedback action on the recipes table: like runs the update
with parameter 1, dislike with parameter 0, and skip never calls
apply_feedback. -/
def applyFeedbackRecipes (rows : List Recipe) (itemId : Option Int) :
    FeedbackAction → List Recipe
  | .like => updateRecipeLikes rows itemId 1
  | .dislike => updateRecipeLikes rows itemId 0
  | .skip => rows

/-- The popularity increment a feedback action causes on the row with the
given id. -/
def likesDelta (a : FeedbackAction) (rid : Int) (itemId : Option Int) : Int :=
  if a = FeedbackAction.like ∧ some rid = itemId then 1 else 0

/-! ## Ranker / Retriever (fetch_recipes lines 1029-1081, fetch_restaurants
lines 1084-1159, fetch_random_place lines 1200-1253)

A query `SELECT *, score AS match_score FROM t WHERE cls ORDER BY match_score
DESC, pop DESC, RANDOM() LIMIT n` is embedded as: filter the rows by the
WHERE clauses, attach the CASE score, apply an arbitrary permutation
(the RANDOM() tiebreak), stably insertion-sort by (score, pop) descending,
and take the first n rows.  In the degenerate case where `terms` is non-empty
but every term normalizes to empty, the generated SQL is ill-formed and
raises; the embedding treats the term clause as unsatisfiable there. -/

/-- `normalize(primary) if primary else ""`. -/
def primaryNorm (primary : Option String) : String := normalize (primary.getD "")

/-- `selected_category or (taste if taste and taste != "random" else None)`. -/
def categoryFilterOf (selected taste : Option String) : Option String :=
  match truthy selected with
  | some c => some c
  | none =>
    match truthy taste with
    | some t => if t = "random" then none else some t
    | none => none

/-- The per-term OR clause of fetch_recipes:
`lower(title) LIKE ? OR lower(tags) LIKE ? OR lower(keywords) LIKE ?`,
disjoined over the non-empty normalized terms. -/
def recipeTermPred (terms : List String) (r : Recipe) : Bool :=
  (terms.filterMap (fun t => if normalize t = "" then none else some (normalize t))).any
    (fun n => substr n (sqlLower r.title) || substr n (sqlLower r.tags) ||
      substr n (sqlLower r.keywords))

/-- `LOWER(category)=?` with the lower-cased category filter as parameter. -/
def recipeCatExact (cat : String) (r : Recipe) : Bool :=
  sqlLower r.category == pyLower cat

/-- The widening clause of fetch_recipes:
`LOWER(category) LIKE ? OR LOWER(tags) LIKE ? OR LOWER(keywords) LIKE ?`. -/
def recipeCatWide (cat : String) (r : Recipe) : Bool :=
  substr (pyLower cat) (sqlLower r.category) || substr (pyLower cat) (sqlLower r.tags) ||
    substr (pyLower cat) (sqlLower r.keywords)

/-- The CASE expression scoring the primary phrase: 3 on a title match, 2 on
a tags match, 1 on a keywords match, 0 otherwise (and 0 when there is no
primary phrase). -/
def recipeScore (pn : String) (r : Recipe) : Nat :=
  if pn = "" then 0
  else if substr pn (sqlLower r.title) then 3
  else if substr pn (sqlLower r.tags) then 2
  else if substr pn (sqlLower r.keywords) then 1
  else 0

/-- Ordering of fetch_recipes results:
`ORDER BY match_score DESC, likes DESC`. -/
def recipeLe (a b : Recipe × Nat) : Bool :=
  keyGe ((a.2 : Nat), a.1.likes) ((b.2 : Nat), b.1.likes)

/-- The inner `run_query` of fetch_recipes. -/
def runRecipeQuery (shuffle : List (Recipe × Nat) → List (Recipe × Nat))
    (rows : List Recipe) (pred : Recipe → Bool) (pn : String) (limit : Nat) :
    List (Recipe × Nat) :=
  (sortBy recipeLe
    (shuffle ((rows.filter pred).map (fun r => (r, recipeScore pn r))))).take limit

/-- The WHERE clause of the first fetch_recipes query. -/
def recipeBasePred (terms : List String) (catFilter : Option String) (r : Recipe) :
    Bool :=
  (if terms = [] then true else recipeTermPred terms r) &&
    (match catFilter with
     | some c => recipeCatExact c r
     | none => true)

/-- The WHERE clause of the fallback fetch_recipes query: the exact category
clause (appended last) replaced by the widening clause. -/
def recipeWidePred (terms : List String) (cat : String) (r : Recipe) : Bool :=
  (if terms = [] then true else recipeTermPred terms r) && recipeCatWide cat r

/-- `fetch_recipes` from src/main.py lines 1029-1081. -/
def fetch_recipes (shuffle : List (Recipe × Nat) → List (Recipe × Nat))
    (rows : List Recipe) (terms : List String) (taste : Option String)
    (limit : Nat) (primary : Option String) (selected : Option String) :
    List (Recipe × Nat) :=
  match categoryFilterOf selected taste with
  | none => runRecipeQuery shuffle rows (recipeBasePred terms none) (primaryNorm primary) limit
  | some c =>
    let first := runRecipeQuery shuffle rows (recipeBasePred terms (some c))
      (primaryNorm primary) limit
    if first ≠ [] ∨ (truthy selected).isSome then first
    else runRecipeQuery shuffle rows (recipeWidePred terms c) (primaryNorm primary) limit

/-- A row of the `restaurants` table (the columns the engine reads). -/
structure Restaurant where
  id : Int
  name : String
  city : String
  category : String
  tags : String
  keywords : String
  cuisine : String
  rating : Rat
deriving DecidableEq

/-- The `city=?` clause, added only when the city argument is truthy. -/
def cityPred (city : String) (r : Restaurant) : Bool :=
  if city = "" then true else r.city == city

/-- The per-term OR clause of fetch_restaurants, which also searches cuisine. -/
def restTermPred (terms : List String) (r : Restaurant) : Bool :=
  (terms.filterMap (fun t => if normalize t = "" then none else some (normalize t))).any
    (fun n => substr n (sqlLower r.name) || substr n (sqlLower r.tags) ||
      substr n (sqlLower r.keywords) || substr n (sqlLower r.cuisine))

/-- `LOWER(category)=?` on restaurants. -/
def restCatExact (cat : String) (r : Restaurant) : Bool :=
  sqlLower r.category == pyLower cat

/-- The widening clause of fetch_restaurants, which also searches cuisine. -/
def restCatWide (cat : String) (r : Restaurant) : Bool :=
  substr (pyLower cat) (sqlLower r.category) || substr (pyLower cat) (sqlLower r.tags) ||
    substr (pyLower cat) (sqlLower r.keywords) || substr (pyLower cat) (sqlLower r.cuisine)

/-- The taste_hints dictionary local to fetch_restaurants. -/
def tasteHints (t : String) : List String :=
  if t = "sweet" then ["слад", "десерт", "кофе", "кофей", "sweet"]
  else if t = "salty" then ["сол", "сыт", "гриль", "бургер", "пицц", "salty"]
  else if t = "spicy" then ["остр", "чили", "азиат", "spicy", "огн"]
  else if t = "healthy" then ["полез", "здоров", "боул", "овощ", "healthy"]
  else [t]

/-- The hint clause of the dead `elif taste` branch of fetch_restaurants. -/
def restHintPred (t : String) (r : Restaurant) : Bool :=
  ((tasteHints t).filterMap (fun h => if normalize h = "" then none else some (normalize h))).any
    (fun n => substr n (sqlLower r.tags) || substr n (sqlLower r.keywords) ||
      substr n (sqlLower r.cuisine))

/-- Scoring of fetch_restaurants results (name, tags, keywords; cuisine is
not scored). -/
def restScore (pn : String) (r : Restaurant) : Nat :=
  if pn = "" then 0
  else if substr pn (sqlLower r.name) then 3
  else if substr pn (sqlLower r.tags) then 2
  else if substr pn (sqlLower r.keywords) then 1
  else 0

/-- Ordering of fetch_restaurants results:
`ORDER BY match_score DESC, rating DESC`. -/
def restLe (a b : Restaurant × Nat) : Bool :=
  keyGe ((a.2 : Nat), a.1.rating) ((b.2 : Nat), b.1.rating)

/-- The inner `run_query` of fetch_restaurants. -/
def runRestQuery (shuffle : List (Restaurant × Nat) → List (Restaurant × Nat))
    (rows : List Restaurant) (pred : Restaurant → Bool) (pn : String) (limit : Nat) :
    List (Restaurant × Nat) :=
  (sortBy restLe
    (shuffle ((rows.filter pred).map (fun r => (r, restScore pn r))))).take limit

/-- The WHERE clause of the first fetch_restaurants query. -/
def restBasePred (city : String) (terms : List String) (catFilter : Option String)
    (taste : Option String) (r : Restaurant) : Bool :=
  cityPred city r && (if terms = [] then true else restTermPred terms r) &&
    (match catFilter with
     | some c => restCatExact c r
     | none =>
       match truthy taste with
       | some t => if t = "random" then true else restHintPred t r
       | none => true)

/-- The WHERE clause of the fallback fetch_restaurants query: the exact
category clause (appended last) replaced by the widening clause. -/
def restWidePred (city : String) (terms : List String) (cat : String)
    (r : Restaurant) : Bool :=
  cityPred city r && (if terms = [] then true else restTermPred terms r) &&
    restCatWide cat r

/-- `fetch_restaurants` from src/main.py lines 1084-1159. -/
def fetch_restaurants (shuffle : List (Restaurant × Nat) → List (Restaurant × Nat))
    (rows : List Restaurant) (city : String) (terms : List String)
    (taste : Option String) (limit : Nat) (primary : Option String)
    (selected : Option String) : List (Restaurant × Nat) :=
  match categoryFilterOf selected taste with
  | none => runRestQuery shuffle rows (restBasePred city terms none taste)
      (primaryNorm primary) limit
  | some c =>
    let first := runRestQuery shuffle rows (restBasePred city terms (some c) taste)
      (primaryNorm primary) limit
    if first ≠ [] ∨ (truthy selected).isSome then first
    else runRestQuery shuffle rows (restWidePred city terms c) (primaryNorm primary) limit

/-! ## Single random venue retrieval (fetch_random_place, lines 1200-1253) -/

/-- `ORDER BY rating DESC, RANDOM() LIMIT 1` over a filtered row set. -/
def pickTopRated (shuffle : List Restaurant → List Restaurant)
    (l : List Restaurant) : Option Restaurant :=
  (sortBy (fun a b => keyGe (a.rating, (0 : Int)) (b.rating, (0 : Int))) (shuffle l)).head?

/-- The category post-processing at the end of fetch_random_place: an empty
category field is overwritten by the resolved category, else by the detected
one; a non-empty field is overwritten by the resolved category.  The category
classifier `detect_category_from_text` is not under verification here and is
passed in abstractly; it only ever rewrites the category display field. -/
def placeAdjustCategory (detect : String → String → Option String)
    (category : String) (r : Restaurant) : Restaurant :=
  if r.category = "" then
    if category ≠ "" ∧ category ≠ "random" then { r with category := category }
    else
      match detect r.tags r.keywords with
      | some d => { r with category := d }
      | none => r
  else if category ≠ "" ∧ category ≠ "random" then { r with category := category }
  else r

/-- The `city=?` clause of fetch_random_place (`1=1` when city is falsy). -/
def placeBase (city : String) (r : Restaurant) : Bool :=
  if city = "" then true else r.city == city

/-- Row selection of fetch_random_place: the exact-category query, the
widening retry that drops only the category clause and keeps the city clause
(taken when nothing matched and no explicit category was supplied), or the
category-free query. -/
def fetchPlaceRow (shuffle : List Restaurant → List Restaurant)
    (rows : List Restaurant) (city : String) (category : String)
    (selectedIsSome : Bool) : Option Restaurant :=
  if category ≠ "" ∧ category ≠ "random" then
    match pickTopRated shuffle
        (rows.filter (fun r => placeBase city r && restCatExact category r)) with
    | some x => some x
    | none =>
      if selectedIsSome then none
      else pickTopRated shuffle
        (rows.filter (fun r => placeBase city r && restCatWide category r))
  else pickTopRated shuffle (rows.filter (placeBase city))

/-- `fetch_random_place` from src/main.py lines 1200-1253.  The final
`if not row: return None` keeps the function from jumping to another city or
category when the city has no match. -/
def fetch_random_place (shuffle : List Restaurant → List Restaurant)
    (detect : String → String → Option String) (rows : List Restaurant)
    (tastes : List TasteRow) (chatId : Int) (city : String)
    (taste : Option String) (selected : Option String) (choice : Fin 4) :
    Option Restaurant :=
  let category :=
    match truthy selected with
    | some c => c
    | none => resolve_random_category tastes chatId taste choice
  match fetchPlaceRow shuffle rows city category (truthy selected).isSome with
  | none => none
  | some x => some (placeAdjustCategory detect category x)

/-! ## Repeat avoidance (send_random_place lines 1875-1888, send_random_recipe
lines 1821-1828)

The loop `for _ in range(3): alt = fetch(...); if not alt or id(alt) != last:
item = alt or item; break` consumes the successive fetch results. -/

/-- `suggestion_id` from src/main.py line 411. -/
def suggestion_id (r : Option Restaurant) : Option Int := r.map (fun x => x.id)

/-- The bounded retry loop of the repeat-avoidance mechanism, fed the list of
successive re-fetch results (the loop body runs at most `alts.length` times,
three in the source). -/
def retryLoop (last : Option Int) (r : Restaurant) :
    List (Option Restaurant) → Restaurant
  | [] => r
  | none :: _ => r
  | some x :: rest => if some x.id = last then retryLoop last r rest else x

/-- Repeat avoidance around a fresh pick: retry only when the fresh pick
carries the identifier stored in LastSuggestion, then accept whatever the
last retrieval produced. -/
def repeatAvoid (last : Option Int) (first : Restaurant)
    (alts : List (Option Restaurant)) : Restaurant :=
  if some first.id = last then retryLoop last first alts else first

/-- The random-place flow of send_random_place: one fresh fetch, the
repeat-avoidance retries drawing three further fetches with fresh RANDOM()
draws, `none` when the first fetch finds nothing. -/
def sendRandomPlaceModel (shuffle0 : List Restaurant → List Restaurant)
    (shuffles : Fin 3 → List Restaurant → List Restaurant)
    (detect : String → String → Option String) (rows : List Restaurant)
    (tastes : List TasteRow) (chatId : Int) (city : String)
    (taste : Option String) (selected : Option String) (choice : Fin 4)
    (last : Option Int) : Option Restaurant :=
  match fetch_random_place shuffle0 detect rows tastes chatId city taste selected choice with
  | none => none
  | some p =>
    some (repeatAvoid last p
      ((List.finRange 3).map
        (fun i => fetch_random_place (shuffles i) detect rows tastes chatId city taste selected choice)))

/-! ## Busy flag (choose_mode lines 1448-1476, send_random_recipe lines
1800-1846)

The per-user processing_random flag is set before the multi-step retrieval
and cleared by plain `set_processing_random(user_id, False)` calls on the
success and empty-result paths; no try/finally wraps the region, so an
exception raised at any awaited step propagates past every clearing call.
The flow is modelled step by step; `raises s` says whether an exception is
raised at step `s`, and the function returns the value of the flag after the
operation has exited (normally or by exception). -/

/-- The steps of the 🎲 flow at which an exception can propagate: the
reaction message (send_text_safely), the cozy_delay pause, the catalog read
in fetch_random_recipe, the no-result AI fallback, the repeat-avoidance
re-fetches, and the result card delivery. -/
inductive RandomStep
  | reaction
  | pause
  | fetchItem
  | noResults
  | retryFetch
  | sendCard
deriving DecidableEq

/-- The processing_random flag after one run of the 🎲 branch of choose_mode
(set flag; reaction; pause; send_random_recipe with its internal clears; the
final clear in choose_mode).  `fetchEmpty` selects the empty-result path and
`needRetry` the repeat-avoidance path. -/
def runRandomFlow (raises : RandomStep → Bool) (fetchEmpty : Bool)
    (needRetry : Bool) : Bool :=
  if raises RandomStep.reaction then true
  else if raises RandomStep.pause then true
  else if raises RandomStep.fetchItem then true
  else if fetchEmpty then
    (if raises RandomStep.noResults then true else false)
  else if needRetry && raises RandomStep.retryFetch then true
  else if raises RandomStep.sendCard then true
  else false

/-! ## Claim theorems -/

theorem advance_iterate_store {α M : Type} (items : List α) (m : M) :
    ∀ j, (advance_queue (α := α) (M := M))^[j] (store_queue items m) =
      some { items := items, index := j, meta := m } := by
  intro j
  induction j with
  | zero => rfl
  | succ n ih =>
      rw [Function.iterate_succ_apply', ih]
      rfl

/-- C5: after storing K items the cursor starts at 0, the j-th current call
returns the j-th queued item for j < K, every call at or past the end
(including extra advances) returns none instead of faulting, and on a
duplicate-free queue the first K current calls return pairwise distinct
items. -/
theorem claim_C5_queue_cursor {α M : Type} (items : List α) (m : M) :
    (∀ j, current_item ((advance_queue (α := α) (M := M))^[j] (store_queue items m)) =
      items.get? j)
    ∧ (∀ j (h : j < items.length),
        current_item ((advance_queue (α := α) (M := M))^[j] (store_queue items m)) =
          some (items.get ⟨j, h⟩))
    ∧ (∀ j, items.length ≤ j →
        current_item ((advance_queue (α := α) (M := M))^[j] (store_queue items m)) = none)
    ∧ (items.Nodup → ∀ i j, i < items.length → j < items.length → i ≠ j →
        current_item ((advance_queue (α := α) (M := M))^[i] (store_queue items m)) ≠
          current_item ((advance_queue (α := α) (M := M))^[j] (store_queue items m)))
    ∧ (∀ b : Bundle α M, b.items.length ≤ b.index → current_item (some b) = none) := by
  have hbase : ∀ j, current_item ((advance_queue (α := α) (M := M))^[j] (store_queue items m)) =
      items.get? j := by
    intro j
    rw [advance_iterate_store]
    rfl
  refine ⟨hbase, ?_, ?_, ?_, ?_⟩
  · intro j h
    rw [hbase j]
    exact List.get?_eq_get h
  · intro j h
    rw [hbase j]
    exact List.get?_eq_none.mpr h
  · intro hnd i j hi hj hne
    rw [hbase i, hbase j]
    intro heq
    exact hne (List.get?_inj hi hnd heq)
  · intro b h
    show b.items.get? b.index = none
    exact List.get?_eq_none.mpr h

theorem claim_C5_witness :
    current_item ((advance_queue (α := Nat) (M := Unit))^[1] (store_queue [10, 20, 30] ())) =
      some 20
    ∧ current_item ((advance_queue (α := Nat) (M := Unit))^[3] (store_queue [10, 20, 30] ())) =
      none
    ∧ current_item ((advance_queue (α := Nat) (M := Unit))^[7] (store_queue [10, 20, 30] ())) =
      none
    ∧ current_item ((advance_queue (α := Nat) (M := Unit))^[0] (store_queue [10, 20, 30] ())) ≠
      current_item ((advance_queue (α := Nat) (M := Unit))^[1] (store_queue [10, 20, 30] ())) := by
  refine ⟨?_, ?_, ?_, ?_⟩
  · have h := (claim_C5_queue_cursor [10, 20, 30] ()).2.1 1 (by decide)
    rw [h]
    rfl
  · exact (claim_C5_queue_cursor [10, 20, 30] ()).2.2.1 3 (by decide)
  · exact (claim_C5_queue_cursor [10, 20, 30] ()).2.2.1 7 (by decide)
  · exact (claim_C5_queue_cursor [10, 20, 30] ()).2.2.2.1 (by decide) 0 1 (by decide)
      (by decide) (by decide)

theorem tastesAfter_of_some (chatId : Int) (cat : String) :
    ∀ (events : List Bool) (t0 : Int × String → Option (Int × Int)) (l d : Int),
      t0 (chatId, cat) = some (l, d) →
      tastesAfter chatId cat t0 events (chatId, cat) =
        some (l + events.count true, d + events.count false) := by
  intro events
  induction events with
  | nil =>
      intro t0 l d h
      simp [tastesAfter, h]
  | cons e es ih =>
      intro t0 l d h
      have hstep : upsertTaste t0 chatId cat e (chatId, cat) =
          some (l + (if e then 1 else 0), d + (if e then 0 else 1)) := by
        simp [upsertTaste, h]
      have := ih (upsertTaste t0 chatId cat e) _ _ hstep
      show tastesAfter chatId cat (upsertTaste t0 chatId cat e) es (chatId, cat) = _
      rw [this]
      cases e <;> simp [List.count_cons] <;> omega

theorem tastesAfter_of_none (chatId : Int) (cat : String)
    (events : List Bool) (t0 : Int × String → Option (Int × Int))
    (h : t0 (chatId, cat) = none) :
    tastesAfter chatId cat t0 events (chatId, cat) =
      if events = [] then none
      else some ((events.count true : Int), (events.count false : Int)) := by
  cases events with
  | nil => simpa [tastesAfter]
  | cons e es =>
      have hstep : upsertTaste t0 chatId cat e (chatId, cat) =
          some ((if e then 1 else 0), (if e then 0 else 1)) := by
        simp [upsertTaste, h]
      have hrest := tastesAfter_of_some chatId cat es (upsertTaste t0 chatId cat e) _ _ hstep
      show tastesAfter chatId cat (upsertTaste t0 chatId cat e) es (chatId, cat) = _
      rw [hrest]
      cases e <;> simp [List.count_cons] <;> omega

/-- C2: starting from a table with no row for the pair, a sequence with N
like events and M dislike events leaves the counters at exactly N and M, and
the counters are non-negative after every prefix of every such sequence. -/
theorem claim_C2_taste_counters (chatId : Int) (cat : String)
    (t0 : Int × String → Option (Int × Int)) (events : List Bool)
    (h0 : t0 (chatId, cat) = none) :
    (events ≠ [] →
      tastesAfter chatId cat t0 events (chatId, cat) =
        some ((events.count true : Int), (events.count false : Int)))
    ∧ (events = [] → tastesAfter chatId cat t0 events (chatId, cat) = none)
    ∧ (∀ n l d,
        tastesAfter chatId cat t0 (events.take n) (chatId, cat) = some (l, d) →
        0 ≤ l ∧ 0 ≤ d) := by
  refine ⟨?_, ?_, ?_⟩
  · intro hne
    rw [tastesAfter_of_none chatId cat events t0 h0, if_neg hne]
  · intro he
    rw [tastesAfter_of_none chatId cat events t0 h0, if_pos he]
  · intro n l d hld
    rw [tastesAfter_of_none chatId cat (events.take n) t0 h0] at hld
    by_cases he : events.take n = []
    · rw [if_pos he] at hld
      exact absurd hld (by simp)
    · rw [if_neg he] at hld
      have h1 : l = ((events.take n).count true : Int) := by
        injection hld with h
        exact (congrArg Prod.fst h).symm
      have h2 : d = ((events.take n).count false : Int) := by
        injection hld with h
        exact (congrArg Prod.snd h).symm
      constructor
      · rw [h1]; positivity
      · rw [h2]; positivity

theorem claim_C2_witness :
    ((fun _ : Int × String => (none : Option (Int × Int))) (1, "salty") = none)
    ∧ tastesAfter 1 "salty" (fun _ => none) [false, false, false] (1, "salty") =
        some (0, 3)
    ∧ (0 : Int) ≤ 0 ∧ (0 : Int) ≤ 3 := by
  have h := claim_C2_taste_counters 1 "salty" (fun _ => none) [false, false, false] rfl
  refine ⟨rfl, ?_, by decide, by decide⟩
  have h1 := h.1 (by decide)
  rw [h1]
  rfl

/-- C10: one feedback application preserves the recipes table length and
rewrites each row likes counter to exactly old + delta, where delta is 1 for
a like on the targeted recipe and 0 for a dislike, a skip, or any other row;
hence the counter never decreases. -/
theorem claim_C10_popularity_monotone (rows : List Recipe) (itemId : Option Int)
    (a : FeedbackAction) :
    (applyFeedbackRecipes rows itemId a).length = rows.length
    ∧ (∀ i r r', rows.get? i = some r →
        (applyFeedbackRecipes rows itemId a).get? i = some r' →
        r'.id = r.id ∧ r'.likes = r.likes + likesDelta a r.id itemId ∧
          r.likes ≤ r'.likes)
    ∧ (∀ r : Recipe, 0 ≤ likesDelta a r.id itemId ∧ likesDelta a r.id itemId ≤ 1) := by
  refine ⟨?_, ?_, ?_⟩
  · cases a <;> simp [applyFeedbackRecipes, updateRecipeLikes]
  · intro i r r' hr hr'
    cases a with
    | like =>
        simp only [applyFeedbackRecipes, updateRecipeLikes, List.get?_map, hr,
          Option.map_some'] at hr'
        by_cases h : some r.id = itemId
        · rw [if_pos h] at hr'
          injection hr' with hh
          subst hh
          refine ⟨rfl, ?_, by simp⟩
          simp [likesDelta, h]
        · rw [if_neg h] at hr'
          injection hr' with hh
          subst hh
          refine ⟨rfl, ?_, le_refl _⟩
          simp [likesDelta, h]
    | dislike =>
        simp only [applyFeedbackRecipes, updateRecipeLikes, List.get?_map, hr,
          Option.map_some'] at hr'
        by_cases h : some r.id = itemId
        · rw [if_pos h] at hr'
          injection hr' with hh
          subst hh
          refine ⟨rfl, ?_, by simp⟩
          simp [likesDelta]
        · rw [if_neg h] at hr'
          injection hr' with hh
          subst hh
          refine ⟨rfl, ?_, le_refl _⟩
          simp [likesDelta]
    | skip =>
        simp only [applyFeedbackRecipes, hr] at hr'
        injection hr' with hh
        subst hh
        refine ⟨rfl, ?_, le_refl _⟩
        simp [likesDelta]
  · intro r
    unfold likesDelta
    split <;> simp

theorem claim_C10_witness :
    ([⟨5, "t", "", "", "sweet", 7⟩] : List Recipe).get? 0 =
        some ⟨5, "t", "", "", "sweet", 7⟩
    ∧ (applyFeedbackRecipes [⟨5, "t", "", "", "sweet", 7⟩] (some 5)
        FeedbackAction.like).get? 0 = some ⟨5, "t", "", "", "sweet", 8⟩
    ∧ (8 : Int) = 7 + likesDelta FeedbackAction.like 5 (some 5)
    ∧ (applyFeedbackRecipes [⟨5, "t", "", "", "sweet", 7⟩] (some 5)
        FeedbackAction.skip).get? 0 = some ⟨5, "t", "", "", "sweet", 7⟩ := by
  refine ⟨rfl, by decide, ?_, by decide⟩
  have h := (claim_C10_popularity_monotone [⟨5, "t", "", "", "sweet", 7⟩] (some 5)
    FeedbackAction.like).2.1 0 ⟨5, "t", "", "", "sweet", 7⟩
    ⟨5, "t", "", "", "sweet", 8⟩ rfl (by decide)
  exact h.2.1.symm ▸ h.2.1

theorem head_sortBy_max {α : Type} (le : α → α → Bool)
    (htot : ∀ a b, le a b = true ∨ le b a = true)
    (htr : ∀ a b c, le a b = true → le b c = true → le a c = true)
    (l : List α) (x : α) (hx : (sortBy le l).head? = some x) :
    x ∈ l ∧ ∀ y ∈ l, le x y = true := by
  cases h : sortBy le l with
  | nil => rw [h] at hx; exact absurd hx (by simp)
  | cons a t =>
      rw [h] at hx
      have hax : a = x := by injection hx
      subst hax
      have hperm := sortBy_perm le l
      rw [h] at hperm
      constructor
      · exact hperm.mem_iff.mp (List.mem_cons_self a t)
      · intro y hy
        have hy2 : y ∈ a :: t := hperm.mem_iff.mpr hy
        rcases List.mem_cons.mp hy2 with rfl | hy3
        · rcases htot y y with hc | hc <;> exact hc
        · have hp := sortBy_pairwise le htot htr l
          rw [h] at hp
          exact (List.pairwise_cons.mp hp).1 y hy3

/-- C1: with an explicit category other than the random sentinel the resolver
returns it unchanged whatever the stored preferences; without one it returns
the stored category maximizing likes minus dislikes provided that top row has
at least one like and a non-negative net score, and otherwise returns the
category drawn by the uniform choice among the four fixed tastes. -/
theorem claim_C1_resolve_random_category :
    (∀ (tastes : List TasteRow) (chatId : Int) (c : String) (choice : Fin 4),
      c ≠ "" → c ≠ "random" →
      resolve_random_category tastes chatId (some c) choice = c)
    ∧ (∀ (tastes : List TasteRow) (chatId : Int) (fallback : Option String)
        (choice : Fin 4) (row : TasteRow),
        fallbackExplicit fallback = none →
        topTasteRow tastes chatId = some row →
        0 ≤ row.likes - row.dislikes → 1 ≤ row.likes →
        resolve_random_category tastes chatId fallback choice = row.category
        ∧ row ∈ tastes.filter (fun r => decide (r.chatId = chatId))
        ∧ ∀ r ∈ tastes.filter (fun r => decide (r.chatId = chatId)),
            r.likes - r.dislikes ≤ row.likes - row.dislikes)
    ∧ (∀ (tastes : List TasteRow) (chatId : Int) (fallback : Option String)
        (choice : Fin 4),
        fallbackExplicit fallback = none →
        topTasteRow tastes chatId = none →
        resolve_random_category tastes chatId fallback choice = defaultTaste choice)
    ∧ (∀ (tastes : List TasteRow) (chatId : Int) (fallback : Option String)
        (choice : Fin 4) (row : TasteRow),
        fallbackExplicit fallback = none →
        topTasteRow tastes chatId = some row →
        ¬(0 ≤ row.likes - row.dislikes ∧ 1 ≤ row.likes) →
        resolve_random_category tastes chatId fallback choice = defaultTaste choice)
    ∧ (∀ choice : Fin 4, defaultTaste choice ∈ DEFAULT_TASTES) := by
  refine ⟨?_, ?_, ?_, ?_, ?_⟩
  · intro tastes chatId c choice hc1 hc2
    simp [resolve_random_category, fallbackExplicit, truthy, hc1, hc2]
  · intro tastes chatId fallback choice row hfb htop h1 h2
    have htop2 : (sortBy
        (fun a b : TasteRow =>
          keyGe (a.likes - a.dislikes, a.likes) (b.likes - b.dislikes, b.likes))
        (tastes.filter (fun r => decide (r.chatId = chatId)))).head? = some row := htop
    have hmax := head_sortBy_max
      (fun a b : TasteRow =>
        keyGe (a.likes - a.dislikes, a.likes) (b.likes - b.dislikes, b.likes))
      (fun a b => keyGe_total (a.likes - a.dislikes, a.likes)
        (b.likes - b.dislikes, b.likes))
      (fun a b c => keyGe_trans (a.likes - a.dislikes, a.likes)
        (b.likes - b.dislikes, b.likes) (c.likes - c.dislikes, c.likes))
      (tastes.filter (fun r => decide (r.chatId = chatId))) row htop2
    refine ⟨?_, hmax.1, ?_⟩
    · simp [resolve_random_category, hfb, htop, h1, h2]
    · intro r hr
      have := hmax.2 r hr
      simp only [keyGe, decide_eq_true_eq] at this
      rcases this with h | ⟨h, _⟩
      · exact le_of_lt h
      · exact le_of_eq h.symm
  · intro tastes chatId fallback choice hfb htop
    simp [resolve_random_category, hfb, htop]
  · intro tastes chatId fallback choice row hfb htop hbad
    simp only [resolve_random_category, hfb, htop]
    rw [if_neg hbad]
  · intro choice
    exact List.get_mem DEFAULT_TASTES choice.1 choice.2

theorem claim_C1_witness :
    resolve_random_category [] 0 (some "spicy") ⟨0, by decide⟩ = "spicy"
    ∧ (fallbackExplicit none = none
        ∧ topTasteRow [TasteRow.mk 7 "sweet" 3 1] 7 = some (TasteRow.mk 7 "sweet" 3 1)
        ∧ resolve_random_category [TasteRow.mk 7 "sweet" 3 1] 7 none ⟨0, by decide⟩ =
            "sweet")
    ∧ (topTasteRow [] 9 = none
        ∧ resolve_random_category [] 9 none ⟨2, by decide⟩ = defaultTaste ⟨2, by decide⟩
        ∧ defaultTaste ⟨2, by decide⟩ = "spicy") := by
  refine ⟨?_, ⟨rfl, ?_, ?_⟩, ⟨rfl, ?_, rfl⟩⟩
  · exact claim_C1_resolve_random_category.1 [] 0 "spicy" ⟨0, by decide⟩
      (by decide) (by decide)
  · rfl
  · exact (claim_C1_resolve_random_category.2.1 [TasteRow.mk 7 "sweet" 3 1] 7 none
      ⟨0, by decide⟩ (TasteRow.mk 7 "sweet" 3 1) rfl rfl (by decide) (by decide)).1
  · exact claim_C1_resolve_random_category.2.2.1 [] 9 none ⟨2, by decide⟩ rfl rfl

theorem recipeLe_total (a b : Recipe × Nat) :
    recipeLe a b = true ∨ recipeLe b a = true := keyGe_total _ _

theorem recipeLe_trans (a b c : Recipe × Nat) :
    recipeLe a b = true → recipeLe b c = true → recipeLe a c = true :=
  keyGe_trans _ _ _

theorem restLe_total (a b : Restaurant × Nat) :
    restLe a b = true ∨ restLe b a = true := keyGe_total _ _

theorem restLe_trans (a b c : Restaurant × Nat) :
    restLe a b = true → restLe b c = true → restLe a c = true :=
  keyGe_trans _ _ _

theorem take_sortBy_spec {γ : Type} (le : γ → γ → Bool)
    (htot : ∀ a b, le a b = true ∨ le b a = true)
    (htr : ∀ a b c, le a b = true → le b c = true → le a c = true)
    (l : List γ) (n : Nat) :
    ((sortBy le l).take n).length ≤ n
    ∧ ((sortBy le l).take n).Pairwise (fun a b => le a b = true)
    ∧ ∀ p ∈ (sortBy le l).take n, p ∈ l := by
  refine ⟨?_, ?_, ?_⟩
  · rw [List.length_take]
    exact min_le_left _ _
  · exact (sortBy_pairwise le htot htr l).sublist (List.take_sublist n _)
  · intro p hp
    exact (sortBy_perm le l).mem_iff.mp (List.mem_of_mem_take hp)

theorem runRecipeQuery_spec (shuffle : List (Recipe × Nat) → List (Recipe × Nat))
    (hs : ∀ l, List.Perm (shuffle l) l) (rows : List Recipe)
    (pred : Recipe → Bool) (pn : String) (limit : Nat) :
    (runRecipeQuery shuffle rows pred pn limit).length ≤ limit
    ∧ (runRecipeQuery shuffle rows pred pn limit).Pairwise
        (fun a b => recipeLe a b = true)
    ∧ ∀ p ∈ runRecipeQuery shuffle rows pred pn limit,
        p.2 = recipeScore pn p.1 ∧ p.1 ∈ rows ∧ pred p.1 = true := by
  have base := take_sortBy_spec recipeLe recipeLe_total recipeLe_trans
    (shuffle ((rows.filter pred).map (fun r => (r, recipeScore pn r)))) limit
  refine ⟨base.1, base.2.1, ?_⟩
  intro p hp
  have h1 := base.2.2 p hp
  have h2 := (hs _).mem_iff.mp h1
  rcases List.mem_map.mp h2 with ⟨r, hr, rfl⟩
  have hr2 := List.mem_filter.mp hr
  exact ⟨rfl, hr2.1, hr2.2⟩

theorem runRestQuery_spec (shuffle : List (Restaurant × Nat) → List (Restaurant × Nat))
    (hs : ∀ l, List.Perm (shuffle l) l) (rows : List Restaurant)
    (pred : Restaurant → Bool) (pn : String) (limit : Nat) :
    (runRestQuery shuffle rows pred pn limit).length ≤ limit
    ∧ (runRestQuery shuffle rows pred pn limit).Pairwise
        (fun a b => restLe a b = true)
    ∧ ∀ p ∈ runRestQuery shuffle rows pred pn limit,
        p.2 = restScore pn p.1 ∧ p.1 ∈ rows ∧ pred p.1 = true := by
  have base := take_sortBy_spec restLe restLe_total restLe_trans
    (shuffle ((rows.filter pred).map (fun r => (r, restScore pn r)))) limit
  refine ⟨base.1, base.2.1, ?_⟩
  intro p hp
  have h1 := base.2.2 p hp
  have h2 := (hs _).mem_iff.mp h1
  rcases List.mem_map.mp h2 with ⟨r, hr, rfl⟩
  have hr2 := List.mem_filter.mp hr
  exact ⟨rfl, hr2.1, hr2.2⟩

theorem fetch_recipes_is_run (shuffle : List (Recipe × Nat) → List (Recipe × Nat))
    (rows : List Recipe) (terms : List String) (taste : Option String)
    (limit : Nat) (primary : Option String) (selected : Option String) :
    ∃ pred, fetch_recipes shuffle rows terms taste limit primary selected =
      runRecipeQuery shuffle rows pred (primaryNorm primary) limit := by
  unfold fetch_recipes
  cases categoryFilterOf selected taste with
  | none => exact ⟨_, rfl⟩
  | some c =>
      simp only
      split
      · exact ⟨_, rfl⟩
      · exact ⟨_, rfl⟩

theorem fetch_restaurants_is_run
    (shuffle : List (Restaurant × Nat) → List (Restaurant × Nat))
    (rows : List Restaurant) (city : String) (terms : List String)
    (taste : Option String) (limit : Nat) (primary : Option String)
    (selected : Option String) :
    ∃ pred, fetch_restaurants shuffle rows city terms taste limit primary selected =
      runRestQuery shuffle rows pred (primaryNorm primary) limit := by
  unfold fetch_restaurants
  cases categoryFilterOf selected taste with
  | none => exact ⟨_, rfl⟩
  | some c =>
      simp only
      split
      · exact ⟨_, rfl⟩
      · exact ⟨_, rfl⟩

/-- C3: both ranked retrieval functions return at most `limit` rows, attach
to every returned row the CASE match score of the primary phrase (3 title or
name, 2 tags, 1 keywords, 0 otherwise), and order the result non-increasingly
by (match score, popularity or rating), for every resolution of the RANDOM()
tiebreak. -/
theorem claim_C3_ranked_retrieval :
    (∀ (shuffle : List (Recipe × Nat) → List (Recipe × Nat)) rows terms taste
        limit primary selected,
      (∀ l, List.Perm (shuffle l) l) →
      (fetch_recipes shuffle rows terms taste limit primary selected).length ≤ limit
      ∧ (fetch_recipes shuffle rows terms taste limit primary selected).Pairwise
          (fun a b => recipeLe a b = true)
      ∧ ∀ p ∈ fetch_recipes shuffle rows terms taste limit primary selected,
          p.2 = recipeScore (primaryNorm primary) p.1 ∧ p.1 ∈ rows)
    ∧ (∀ (shuffle : List (Restaurant × Nat) → List (Restaurant × Nat)) rows city
        terms taste limit primary selected,
      (∀ l, List.Perm (shuffle l) l) →
      (fetch_restaurants shuffle rows city terms taste limit primary selected).length
          ≤ limit
      ∧ (fetch_restaurants shuffle rows city terms taste limit primary selected).Pairwise
          (fun a b => restLe a b = true)
      ∧ ∀ p ∈ fetch_restaurants shuffle rows city terms taste limit primary selected,
          p.2 = restScore (primaryNorm primary) p.1 ∧ p.1 ∈ rows) := by
  constructor
  · intro shuffle rows terms taste limit primary selected hs
    rcases fetch_recipes_is_run shuffle rows terms taste limit primary selected with
      ⟨pred, hpred⟩
    rw [hpred]
    have h := runRecipeQuery_spec shuffle hs rows pred (primaryNorm primary) limit
    exact ⟨h.1, h.2.1, fun p hp => ⟨(h.2.2 p hp).1, (h.2.2 p hp).2.1⟩⟩
  · intro shuffle rows city terms taste limit primary selected hs
    rcases fetch_restaurants_is_run shuffle rows city terms taste limit primary
      selected with ⟨pred, hpred⟩
    rw [hpred]
    have h := runRestQuery_spec shuffle hs rows pred (primaryNorm primary) limit
    exact ⟨h.1, h.2.1, fun p hp => ⟨(h.2.2 p hp).1, (h.2.2 p hp).2.1⟩⟩

theorem claim_C3_witness :
    (fetch_recipes (fun l => l)
        [Recipe.mk 1 "apple cake" "sweet" "cake" "sweet" 5,
         Recipe.mk 2 "soup" "salty" "" "salty" 9]
        ["cake"] none 2 (some "cake") none).length ≤ 2
    ∧ (fetch_recipes (fun l => l)
        [Recipe.mk 1 "apple cake" "sweet" "cake" "sweet" 5,
         Recipe.mk 2 "soup" "salty" "" "salty" 9]
        ["cake"] none 2 (some "cake") none).Pairwise
        (fun a b => recipeLe a b = true)
    ∧ (∀ p ∈ fetch_recipes (fun l => l)
        [Recipe.mk 1 "apple cake" "sweet" "cake" "sweet" 5,
         Recipe.mk 2 "soup" "salty" "" "salty" 9]
        ["cake"] none 2 (some "cake") none,
        p.2 = recipeScore (primaryNorm (some "cake")) p.1)
    ∧ (fetch_restaurants (fun l => l)
        [Restaurant.mk 1 "wok bar" "Almaty" "spicy" "" "" "asian" 4,
         Restaurant.mk 2 "grill" "Almaty" "salty" "" "" "bbq" 5]
        "Almaty" [] (some "spicy") 3 none none).length ≤ 3 := by
  have h1 := claim_C3_ranked_retrieval.1 (fun l => l)
    [Recipe.mk 1 "apple cake" "sweet" "cake" "sweet" 5,
     Recipe.mk 2 "soup" "salty" "" "salty" 9]
    ["cake"] none 2 (some "cake") none (fun l => List.Perm.refl l)
  have h2 := claim_C3_ranked_retrieval.2 (fun l => l)
    [Restaurant.mk 1 "wok bar" "Almaty" "spicy" "" "" "asian" 4,
     Restaurant.mk 2 "grill" "Almaty" "salty" "" "" "bbq" 5]
    "Almaty" [] (some "spicy") 3 none none (fun l => List.Perm.refl l)
  exact ⟨h1.1, h1.2.1, fun p hp => (h1.2.2 p hp).1, h2.1⟩

/-- C4: when the exact-category query of either fetch function comes back
empty and the category was inferred (no truthy selected_category), the query
is retried once with the widening substring clause in place of the exact
category clause; when a truthy selected_category is supplied the first query
result is returned as-is, never widened, even when empty. -/
theorem claim_C4_fallback_widening :
    (∀ (shuffle : List (Recipe × Nat) → List (Recipe × Nat)) rows terms taste
        limit primary selected c,
      truthy selected = some c →
      fetch_recipes shuffle rows terms taste limit primary selected =
        runRecipeQuery shuffle rows (recipeBasePred terms (some c))
          (primaryNorm primary) limit)
    ∧ (∀ (shuffle : List (Recipe × Nat) → List (Recipe × Nat)) rows terms taste
        limit primary selected c,
      truthy selected = none →
      categoryFilterOf selected taste = some c →
      runRecipeQuery shuffle rows (recipeBasePred terms (some c))
        (primaryNorm primary) limit = [] →
      fetch_recipes shuffle rows terms taste limit primary selected =
        runRecipeQuery shuffle rows (recipeWidePred terms c)
          (primaryNorm primary) limit)
    ∧ (∀ (shuffle : List (Restaurant × Nat) → List (Restaurant × Nat)) rows city
        terms taste limit primary selected c,
      truthy selected = some c →
      fetch_restaurants shuffle rows city terms taste limit primary selected =
        runRestQuery shuffle rows (restBasePred city terms (some c) taste)
          (primaryNorm primary) limit)
    ∧ (∀ (shuffle : List (Restaurant × Nat) → List (Restaurant × Nat)) rows city
        terms taste limit primary selected c,
      truthy selected = none →
      categoryFilterOf selected taste = some c →
      runRestQuery shuffle rows (restBasePred city terms (some c) taste)
        (primaryNorm primary) limit = [] →
      fetch_restaurants shuffle rows city terms taste limit primary selected =
        runRestQuery shuffle rows (restWidePred city terms c)
          (primaryNorm primary) limit) := by
  refine ⟨?_, ?_, ?_, ?_⟩
  · intro shuffle rows terms taste limit primary selected c h
    have hcf : categoryFilterOf selected taste = some c := by
      simp [categoryFilterOf, h]
    simp only [fetch_recipes, hcf]
    rw [if_pos (Or.inr (by simp [h]))]
  · intro shuffle rows terms taste limit primary selected c hsel hcf hempty
    simp only [fetch_recipes, hcf]
    rw [if_neg]
    simp [hempty, hsel]
  · intro shuffle rows city terms taste limit primary selected c h
    have hcf : categoryFilterOf selected taste = some c := by
      simp [categoryFilterOf, h]
    simp only [fetch_restaurants, hcf]
    rw [if_pos (Or.inr (by simp [h]))]
  · intro shuffle rows city terms taste limit primary selected c hsel hcf hempty
    simp only [fetch_restaurants, hcf]
    rw [if_neg]
    simp [hempty, hsel]

theorem claim_C4_witness :
    truthy (some "sweet") = some "sweet"
    ∧ fetch_recipes (fun l => l)
        [Recipe.mk 1 "toast" "sweet bread" "" "" 2] [] none 3 none (some "sweet") = []
    ∧ truthy none = none
    ∧ categoryFilterOf none (some "sweet") = some "sweet"
    ∧ runRecipeQuery (fun l => l) [Recipe.mk 1 "toast" "sweet bread" "" "" 2]
        (recipeBasePred [] (some "sweet")) (primaryNorm none) 3 = []
    ∧ fetch_recipes (fun l => l) [Recipe.mk 1 "toast" "sweet bread" "" "" 2]
        [] (some "sweet") 3 none none =
      runRecipeQuery (fun l => l) [Recipe.mk 1 "toast" "sweet bread" "" "" 2]
        (recipeWidePred [] "sweet") (primaryNorm none) 3
    ∧ fetch_recipes (fun l => l) [Recipe.mk 1 "toast" "sweet bread" "" "" 2]
        [] (some "sweet") 3 none none = [(Recipe.mk 1 "toast" "sweet bread" "" "" 2, 0)] := by
  refine ⟨rfl, ?_, rfl, rfl, by decide, ?_, by decide⟩
  · have h := claim_C4_fallback_widening.1 (fun l => l)
      [Recipe.mk 1 "toast" "sweet bread" "" "" 2] [] none 3 none (some "sweet")
      "sweet" rfl
    rw [h]
    decide
  · exact claim_C4_fallback_widening.2.1 (fun l => l)
      [Recipe.mk 1 "toast" "sweet bread" "" "" 2] [] (some "sweet") 3 none none
      "sweet" rfl rfl (by decide)

/-- C7 (amended): for every input whose whitespace-normalized form is
non-empty the expander output contains the normalized phrase, is non-empty
and is duplicate-free; an input normalizing to empty (empty or
whitespace-only text) yields the empty set. -/
theorem claim_C7_expand_terms (query : String) (dbRows : List (String × String)) :
    (normalize query ≠ "" →
      normalize query ∈ expand_terms query dbRows
      ∧ expand_terms query dbRows ≠ ∅
      ∧ (expand_terms query dbRows).val.Nodup)
    ∧ (normalize query = "" → expand_terms query dbRows = ∅) := by
  constructor
  · intro h
    have hmem := base_mem_expand_terms query dbRows h
    exact ⟨hmem, Finset.ne_empty_of_mem hmem, (expand_terms query dbRows).nodup⟩
  · intro h
    simp [expand_terms, h]

theorem claim_C7_counterexample :
    (" " : String) ≠ "" ∧ expand_terms " " [] = ∅ := by
  exact ⟨by decide, by decide⟩

theorem claim_C7_witness :
    normalize "Чизкейк" ≠ ""
    ∧ normalize "Чизкейк" ∈ expand_terms "Чизкейк" []
    ∧ expand_terms "Чизкейк" [] ≠ ∅
    ∧ normalize "" = ""
    ∧ expand_terms "" [] = ∅ := by
  have h := claim_C7_expand_terms "Чизкейк" []
  have h0 := claim_C7_expand_terms "" []
  exact ⟨by decide, (h.1 (by decide)).1, (h.1 (by decide)).2.1, by decide,
    h0.2 (by decide)⟩

theorem pickTopRated_mem (shuffle : List Restaurant → List Restaurant)
    (hs : ∀ l, List.Perm (shuffle l) l) (l : List Restaurant) (x : Restaurant)
    (h : pickTopRated shuffle l = some x) : x ∈ l := by
  unfold pickTopRated at h
  cases hh : sortBy (fun a b => keyGe (a.rating, (0 : Int)) (b.rating, (0 : Int)))
      (shuffle l) with
  | nil => rw [hh] at h; exact absurd h (by simp)
  | cons a t =>
      rw [hh] at h
      have hax : a = x := by injection h
      subst hax
      have hmem : a ∈ sortBy (fun a b => keyGe (a.rating, (0 : Int)) (b.rating, (0 : Int)))
          (shuffle l) := by
        rw [hh]; exact List.mem_cons_self a t
      exact (hs l).mem_iff.mp ((sortBy_perm _ _).mem_iff.mp hmem)

theorem pickTopRated_nil (shuffle : List Restaurant → List Restaurant)
    (hs : ∀ l, List.Perm (shuffle l) l) : pickTopRated shuffle [] = none := by
  unfold pickTopRated
  rw [(hs []).eq_nil]
  rfl

theorem placeAdjustCategory_city (detect : String → String → Option String)
    (category : String) (r : Restaurant) :
    (placeAdjustCategory detect category r).city = r.city := by
  unfold placeAdjustCategory
  split
  · split
    · rfl
    · cases detect r.tags r.keywords <;> rfl
  · split <;> rfl

theorem fetchPlaceRow_city (shuffle : List Restaurant → List Restaurant)
    (hs : ∀ l, List.Perm (shuffle l) l) (rows : List Restaurant) (city : String)
    (category : String) (selectedIsSome : Bool) (x : Restaurant)
    (hcity : city ≠ "")
    (h : fetchPlaceRow shuffle rows city category selectedIsSome = some x) :
    x.city = city ∧ x ∈ rows := by
  have hbase : ∀ y : Restaurant, placeBase city y = true → y.city = city := by
    intro y hy
    unfold placeBase at hy
    rw [if_neg hcity] at hy
    exact beq_iff_eq.mp hy
  unfold fetchPlaceRow at h
  by_cases hcat : category ≠ "" ∧ category ≠ "random"
  · rw [if_pos hcat] at h
    cases hp : pickTopRated shuffle
        (rows.filter (fun r => placeBase city r && restCatExact category r)) with
    | some x0 =>
        rw [hp] at h
        have hx0 : x0 = x := by injection h
        subst hx0
        have hmem := pickTopRated_mem shuffle hs _ x0 hp
        have hf := List.mem_filter.mp hmem
        exact ⟨hbase x0 ((Bool.and_eq_true _ _).mp hf.2).1, hf.1⟩
    | none =>
        rw [hp] at h
        cases hselv : selectedIsSome with
        | true => rw [hselv] at h; exact absurd h (by simp)
        | false =>
            rw [hselv] at h
            simp only [Bool.false_eq_true, if_false] at h
            have hmem := pickTopRated_mem shuffle hs _ x h
            have hf := List.mem_filter.mp hmem
            exact ⟨hbase x ((Bool.and_eq_true _ _).mp hf.2).1, hf.1⟩
  · rw [if_neg hcat] at h
    have hmem := pickTopRated_mem shuffle hs _ x h
    have hf := List.mem_filter.mp hmem
    exact ⟨hbase x hf.2, hf.1⟩

theorem fetchPlaceRow_none (shuffle : List Restaurant → List Restaurant)
    (hs : ∀ l, List.Perm (shuffle l) l) (rows : List Restaurant) (city : String)
    (category : String) (selectedIsSome : Bool)
    (hcity : city ≠ "") (hall : ∀ y ∈ rows, y.city ≠ city) :
    fetchPlaceRow shuffle rows city category selectedIsSome = none := by
  have hbase : ∀ y ∈ rows, placeBase city y = false := by
    intro y hy
    unfold placeBase
    rw [if_neg hcity]
    exact beq_eq_false_iff_ne.mpr (hall y hy)
  have h1 : ∀ p : Restaurant → Bool,
      rows.filter (fun r => placeBase city r && p r) = [] := by
    intro p
    rw [List.filter_eq_nil]
    intro a ha
    simp [hbase a ha]
  have h0 : rows.filter (placeBase city) = [] := by
    rw [List.filter_eq_nil]
    intro a ha
    simp [hbase a ha]
  unfold fetchPlaceRow
  by_cases hcat : category ≠ "" ∧ category ≠ "random"
  · rw [if_pos hcat, h1, pickTopRated_nil shuffle hs]
    cases selectedIsSome with
    | true => simp
    | false => simp [h1, pickTopRated_nil shuffle hs]
  · rw [if_neg hcat, h0, pickTopRated_nil shuffle hs]

/-- C9: with a non-empty city every venue returned by fetch_random_place
belongs to that city (the widening retry keeps the city clause), and when no
catalog venue is in that city the function returns none instead of a venue
from another city. -/
theorem claim_C9_city_filter :
    (∀ (shuffle : List Restaurant → List Restaurant)
        (detect : String → String → Option String) rows tastes chatId city taste
        selected choice r,
      (∀ l, List.Perm (shuffle l) l) →
      city ≠ "" →
      fetch_random_place shuffle detect rows tastes chatId city taste selected
        choice = some r →
      r.city = city ∧ ∃ x ∈ rows, x.city = city)
    ∧ (∀ (shuffle : List Restaurant → List Restaurant)
        (detect : String → String → Option String) rows tastes chatId city taste
        selected choice,
      (∀ l, List.Perm (shuffle l) l) →
      city ≠ "" →
      (∀ y ∈ rows, y.city ≠ city) →
      fetch_random_place shuffle detect rows tastes chatId city taste selected
        choice = none) := by
  constructor
  · intro shuffle detect rows tastes chatId city taste selected choice r hs hcity h
    simp only [fetch_random_place] at h
    cases hp : fetchPlaceRow shuffle rows city
        (match truthy selected with
         | some c => c
         | none => resolve_random_category tastes chatId taste choice)
        (truthy selected).isSome with
    | none => rw [hp] at h; exact absurd h (by simp)
    | some x =>
        rw [hp] at h
        have hxr : placeAdjustCategory detect
            (match truthy selected with
             | some c => c
             | none => resolve_random_category tastes chatId taste choice) x = r := by
          injection h
        have hx := fetchPlaceRow_city shuffle hs rows city _ _ x hcity hp
        refine ⟨?_, x, hx.2, hx.1⟩
        rw [← hxr, placeAdjustCategory_city]
        exact hx.1
  · intro shuffle detect rows tastes chatId city taste selected choice hs hcity hall
    simp only [fetch_random_place]
    rw [fetchPlaceRow_none shuffle hs rows city _ _ hcity hall]

theorem claim_C9_witness :
    ("Astana" : String) ≠ ""
    ∧ (∀ l, List.Perm ((fun x : List Restaurant => x) l) l)
    ∧ fetch_random_place (fun x => x) (fun _ _ => none)
        [Restaurant.mk 1 "wok" "Astana" "spicy" "" "" "" 4]
        [] 3 "Astana" (some "spicy") none ⟨0, by decide⟩ =
      some (Restaurant.mk 1 "wok" "Astana" "spicy" "" "" "" 4)
    ∧ (Restaurant.mk 1 "wok" "Astana" "spicy" "" "" "" 4).city = "Astana"
    ∧ fetch_random_place (fun x => x) (fun _ _ => none)
        [Restaurant.mk 1 "wok" "Astana" "spicy" "" "" "" 4]
        [] 3 "Almaty" (some "spicy") none ⟨0, by decide⟩ = none := by
  refine ⟨by decide, fun l => List.Perm.refl l, by decide, ?_, ?_⟩
  · exact (claim_C9_city_filter.1 (fun x => x) (fun _ _ => none)
      [Restaurant.mk 1 "wok" "Astana" "spicy" "" "" "" 4] [] 3 "Astana"
      (some "spicy") none ⟨0, by decide⟩
      (Restaurant.mk 1 "wok" "Astana" "spicy" "" "" "" 4)
      (fun l => List.Perm.refl l) (by decide) (by decide)).1
  · exact claim_C9_city_filter.2 (fun x => x) (fun _ _ => none)
      [Restaurant.mk 1 "wok" "Astana" "spicy" "" "" "" 4] [] 3 "Almaty"
      (some "spicy") none ⟨0, by decide⟩ (fun l => List.Perm.refl l) (by decide)
      (by decide)

theorem retryLoop_mem (last : Option Int) (first : Restaurant) :
    ∀ alts : List (Option Restaurant),
      retryLoop last first alts ∈ first :: alts.filterMap (fun x => x) := by
  intro alts
  induction alts with
  | nil => exact List.mem_cons_self _ _
  | cons a rest ih =>
      cases a with
      | none => exact List.mem_cons_self _ _
      | some x =>
          by_cases h : some x.id = last
          · rw [retryLoop, if_pos h]
            rcases List.mem_cons.mp ih with h1 | h1
            · rw [h1]; exact List.mem_cons_self _ _
            · exact List.mem_cons_of_mem _ (List.mem_cons_of_mem _ h1)
          · rw [retryLoop, if_neg h]
            exact List.mem_cons_of_mem _ (List.mem_cons_self _ _)

theorem retryLoop_ne (last : Option Int) (first : Restaurant) :
    ∀ alts : List (Option Restaurant),
      (∀ a ∈ alts, a.isSome = true) →
      (∃ x : Restaurant, some x ∈ alts ∧ some x.id ≠ last) →
      some (retryLoop last first alts).id ≠ last := by
  intro alts
  induction alts with
  | nil =>
      intro _ hex
      rcases hex with ⟨x, hx, _⟩
      exact absurd hx (by simp)
  | cons a rest ih =>
      intro hsome hex
      have ha := hsome a (List.mem_cons_self a rest)
      rcases Option.isSome_iff_exists.mp ha with ⟨x0, rfl⟩
      by_cases h : some x0.id = last
      · rw [retryLoop, if_pos h]
        refine ih (fun b hb => hsome b (List.mem_cons_of_mem _ hb)) ?_
        rcases hex with ⟨x, hx, hxne⟩
        rcases List.mem_cons.mp hx with h1 | h1
        · have hxx : x0 = x := by injection h1.symm
          subst hxx
          exact absurd h hxne
        · exact ⟨x, h1, hxne⟩
      · rw [retryLoop, if_neg h]
        exact h

/-- C6 (amended): the repeat-avoidance mechanism returns the fresh pick
unchanged when its identifier differs from the stored LastSuggestion,
otherwise retries the retrieval up to three times and accepts whatever the
last retrieval produced; the result is always the fresh pick or one of the
retried picks, and two consecutive results are guaranteed distinct only when
every consulted retry returns an item and some consulted retry returns a
different identifier — when every retry repeats the stored identifier the
same item is returned again. -/
theorem claim_C6_repeat_avoidance :
    (∀ (shuffle0 : List Restaurant → List Restaurant)
        (shuffles : Fin 3 → List Restaurant → List Restaurant) detect rows tastes
        chatId city taste selected choice last p,
      fetch_random_place shuffle0 detect rows tastes chatId city taste selected
        choice = some p →
      sendRandomPlaceModel shuffle0 shuffles detect rows tastes chatId city taste
        selected choice last =
        some (repeatAvoid last p ((List.finRange 3).map
          (fun i => fetch_random_place (shuffles i) detect rows tastes chatId city
            taste selected choice))))
    ∧ (∀ (last : Option Int) (first : Restaurant) (alts : List (Option Restaurant)),
        some first.id ≠ last → repeatAvoid last first alts = first)
    ∧ (∀ (last : Option Int) (first : Restaurant) (alts : List (Option Restaurant)),
        repeatAvoid last first alts ∈ first :: alts.filterMap (fun x => x))
    ∧ (∀ (last : Option Int) (first : Restaurant) (alts : List (Option Restaurant)),
        (∀ a ∈ alts, a.isSome = true) →
        (∃ x : Restaurant, some x ∈ alts ∧ some x.id ≠ last) →
        some (repeatAvoid last first alts).id ≠ last) := by
  refine ⟨?_, ?_, ?_, ?_⟩
  · intro shuffle0 shuffles detect rows tastes chatId city taste selected choice
      last p hp
    simp only [sendRandomPlaceModel, hp]
  · intro last first alts h
    rw [repeatAvoid, if_neg h]
  · intro last first alts
    by_cases h : some first.id = last
    · rw [repeatAvoid, if_pos h]
      exact retryLoop_mem last first alts
    · rw [repeatAvoid, if_neg h]
      exact List.mem_cons_self _ _
  · intro last first alts hsome hex
    by_cases h : some first.id = last
    · rw [repeatAvoid, if_pos h]
      exact retryLoop_ne last first alts hsome hex
    · rw [repeatAvoid, if_neg h]
      exact h

theorem claim_C6_counterexample :
    2 ≤ (([Restaurant.mk 1 "A" "Almaty" "salty" "" "" "" 5,
           Restaurant.mk 2 "B" "Almaty" "salty" "" "" "" 3]).filter
          (fun r => placeBase "Almaty" r && restCatExact "salty" r)).length
    ∧ Option.map (fun r : Restaurant => r.id)
        (sendRandomPlaceModel (fun l => l) (fun _ => fun l => l) (fun _ _ => none)
          [Restaurant.mk 1 "A" "Almaty" "salty" "" "" "" 5,
           Restaurant.mk 2 "B" "Almaty" "salty" "" "" "" 3]
          [] 5 "Almaty" (some "salty") (some "salty") ⟨0, by decide⟩ none) = some 1
    ∧ Option.map (fun r : Restaurant => r.id)
        (sendRandomPlaceModel (fun l => l) (fun _ => fun l => l) (fun _ _ => none)
          [Restaurant.mk 1 "A" "Almaty" "salty" "" "" "" 5,
           Restaurant.mk 2 "B" "Almaty" "salty" "" "" "" 3]
          [] 5 "Almaty" (some "salty") (some "salty") ⟨0, by decide⟩ (some 1)) =
        some 1 := by
  refine ⟨by decide, by decide, by decide⟩

theorem claim_C6_witness :
    (some (1 : Int) ≠ some (2 : Int))
    ∧ repeatAvoid (some 2) (Restaurant.mk 1 "A" "Almaty" "salty" "" "" "" 5)
        [] = Restaurant.mk 1 "A" "Almaty" "salty" "" "" "" 5
    ∧ (∀ a ∈ [some (Restaurant.mk 2 "B" "Almaty" "salty" "" "" "" 3)],
        a.isSome = true)
    ∧ some (repeatAvoid (some 1) (Restaurant.mk 1 "A" "Almaty" "salty" "" "" "" 5)
        [some (Restaurant.mk 2 "B" "Almaty" "salty" "" "" "" 3)]).id ≠ some 1 := by
  refine ⟨by decide, ?_, by decide, ?_⟩
  · exact claim_C6_repeat_avoidance.2.1 (some 2)
      (Restaurant.mk 1 "A" "Almaty" "salty" "" "" "" 5) [] (by decide)
  · exact claim_C6_repeat_avoidance.2.2.2 (some 1)
      (Restaurant.mk 1 "A" "Almaty" "salty" "" "" "" 5)
      [some (Restaurant.mk 2 "B" "Almaty" "salty" "" "" "" 3)] (by decide)
      ⟨Restaurant.mk 2 "B" "Almaty" "salty" "" "" "" 3, by decide, by decide⟩

/-- C8: on the success and empty-result exits the busy flag ends false, but
because no guaranteed-cleanup block wraps the operation, an exception raised
at any step between the set and the clearing calls (the catalog read, the
reaction message, the no-result fallback, the retries, the card delivery)
leaves the per-user processing_random flag set — contradicting the claimed
invariant that the flag is false after the operation exits by any path. -/
theorem claim_C8_busy_flag_leak :
    runRandomFlow (fun _ => false) false false = false
    ∧ runRandomFlow (fun _ => false) true false = false
    ∧ runRandomFlow (fun _ => false) false true = false
    ∧ runRandomFlow (fun s => decide (s = RandomStep.fetchItem)) false false = true
    ∧ runRandomFlow (fun s => decide (s = RandomStep.reaction)) false false = true
    ∧ runRandomFlow (fun s => decide (s = RandomStep.noResults)) true false = true
    ∧ runRandomFlow (fun s => decide (s = RandomStep.sendCard)) false false = true := by
  refine ⟨rfl, rfl, rfl, rfl, rfl, rfl, rfl⟩

end FoodBot
